import Mathlib

/-!
Shallow embedding of `src/index.ts` of `@made-simple/sqlite-store`: a class
`Store<T>` keeping an in-memory mirror (`this.store`, a JS object) of a blob
persisted under the key `"store"` in a Keyv SQLite backend.  Mutations are
applied optimistically to the mirror and persisted by `update`, whose
`.catch` handler — a deferred microtask, never run synchronously — rolls the
mirror back to the pre-mutation snapshot when the write fails.

Modelling choices:
* the mirror (a JS object) is an association list `Mirror V` in property
  order: assignment replaces in place or appends, `delete` removes the entry,
  `key in obj` is membership;
* the backend write issued by `update` is queued as a `Pending` record
  carrying the value written, the snapshot and a failure oracle (whether this
  particular write will be rejected); `settle` runs all queued `.catch` /
  fulfilment handlers in order, which is when a failed write performs the
  rollback `this.store = before`;
* TS `undefined` and `null` results are `none` and `some none` in nested
  options, keeping the three-way distinction of the source's return types;
* all functions are total, modelling the fact that no public operation throws.
-/

set_option autoImplicit false

namespace SqliteStore

/-- The in-memory mirror `this.store`: a JS object as an association list in
property order. -/
abbrev Mirror (V : Type) := List (String × V)

namespace Mirror

variable {V : Type}

/-- Property read `obj[key]`: the first entry with this key, if any. -/
def lookup : Mirror V → String → Option V
  | [], _ => none
  | (k, v) :: rest, key => if k = key then some v else lookup rest key

/-- Membership test `key in obj`. -/
def hasKey (m : Mirror V) (key : String) : Bool :=
  (lookup m key).isSome

/-- Property write `obj[key] = v`: replace in place when the key is present,
append otherwise (JS property-order semantics). -/
def insert : Mirror V → String → V → Mirror V
  | [], key, v => [(key, v)]
  | (k, w) :: rest, key, v =>
      if k = key then (k, v) :: rest else (k, w) :: insert rest key v

/-- Property removal `delete obj[key]`. -/
def erase : Mirror V → String → Mirror V
  | [], _ => []
  | (k, w) :: rest, key => if k = key then rest else (k, w) :: erase rest key

/-- A JS object never holds two entries with the same key; mirrors built by
the store's own operations always satisfy this. -/
def NodupKeys (m : Mirror V) : Prop :=
  (m.map Prod.fst).Nodup

instance (m : Mirror V) : Decidable (NodupKeys m) := by
  unfold NodupKeys; infer_instance

end Mirror

/-- One backend write issued by `update` that has not yet settled:
`this.keyv!.set("store", this.store)` plus the `.catch` rollback handler it
carries.  `written` is the mirror passed to the write, `before` the snapshot
the handler would restore, `fails` the oracle saying whether this write will
be rejected by the backend. -/
structure Pending (V : Type) where
  written : Mirror V
  before : Option (Mirror V)
  fails : Bool
  deriving DecidableEq

/-- The `Store` class.  `connectedFlag` is the private field `connected_`,
`hasKeyv` is `this.keyv !== null`, `store` is the in-memory mirror,
`backend` is the blob currently persisted under the backend key `"store"`,
and `pending` are the issued-but-unsettled backend writes.  The uri fields
and the logger carry no behaviour relevant here and are modelled separately
(`normalizeUri` and `cleanUri` below). -/
structure Store (V : Type) where
  connectedFlag : Bool
  hasKeyv : Bool
  inDevMode : Bool
  store : Mirror V
  backend : Mirror V
  pending : List (Pending V)
  deriving DecidableEq

namespace Store

variable {V : Type}

/-- The getter `get connected() { return this.connected_ && this.keyv !== null; }`. -/
def connected (s : Store V) : Bool :=
  s.connectedFlag && s.hasKeyv

/-- JS truthiness of a `boolean | undefined` value, as in `!this.has(key)`:
`undefined` and `false` are falsy. -/
def truthy (r : Option Bool) : Bool :=
  r.getD false

/-- `update(before?, action?)`: refuse when disconnected; in development mode
do nothing and report success; otherwise issue the asynchronous backend write
`this.keyv!.set("store", this.store)` with its `.catch` rollback handler and
return `!failed`.  The handler is a deferred microtask, so `failed` is still
`false` at the return — the returned flag is `true` whenever connected.  The
queued write settles later, in `settle`. -/
def update (s : Store V) (before : Option (Mirror V)) (fails : Bool) :
    Option Bool × Store V :=
  if !s.connected then (none, s)
  else if s.inDevMode then (some true, s)
  else (some true, { s with pending := s.pending ++ [⟨s.store, before, fails⟩] })

/-- Settling of one backend write: the fulfilment handler records the written
blob as persisted; the `.catch` handler performs `this.store = before` when a
snapshot was supplied (the snapshot object is always truthy). -/
def settleOne (s : Store V) (p : Pending V) : Store V :=
  if p.fails then
    match p.before with
    | some b => { s with store := b }
    | none => s
  else { s with backend := p.written }

/-- Run every queued asynchronous handler, in issue order. -/
def settle (s : Store V) : Store V :=
  { s.pending.foldl settleOne s with pending := [] }

/-- `has(key)`: membership in the mirror, `undefined` when disconnected. -/
def has (s : Store V) (key : String) : Option Bool :=
  if !s.connected then none
  else some (Mirror.hasKey s.store key)

/-- `set(key, value)`: snapshot the mirror, assign `this.store[key] = value`,
delegate to `update(before)`. -/
def set (s : Store V) (key : String) (value : V) (fails : Bool) :
    Option Bool × Store V :=
  if !s.connected then (none, s)
  else
    let before := s.store
    update { s with store := Mirror.insert s.store key value } (some before) fails

/-- `delete(key)`: `undefined` when disconnected, `null` when the key is
absent, otherwise snapshot, remove the key and delegate to `update(before)`.
The result nests `update`'s `boolean | undefined` into
`boolean | null | undefined`. -/
def delete (s : Store V) (key : String) (fails : Bool) :
    Option (Option Bool) × Store V :=
  if !s.connected then (none, s)
  else if !(truthy (s.has key)) then (some none, s)
  else
    let before := s.store
    let r := update { s with store := Mirror.erase s.store key } (some before) fails
    (r.1.map some, r.2)

/-- JS read `return this.store[key]`: an absent property reads as
`undefined`. -/
def jsRead (r : Option V) : Option (Option V) :=
  match r with
  | some v => some (some v)
  | none => none

/-- `get(key, fallback?)`: `undefined` when disconnected; when the key is
present, `return this.store[key]`; when absent with no fallback, `null`; when
absent with a fallback, perform `set(key, fallback)` and return `null` when
that set returned `false`, else `return this.store[key]` read from the
post-set mirror. -/
def get (s : Store V) (key : String) (fallback : Option V) (fails : Bool) :
    Option (Option V) × Store V :=
  if !s.connected then (none, s)
  else if truthy (s.has key) then (jsRead (Mirror.lookup s.store key), s)
  else
    match fallback with
    | none => (some none, s)
    | some f =>
        let r := set s key f fails
        if r.1 = some false then (some none, r.2)
        else (jsRead (Mirror.lookup r.2.store key), r.2)

/-- The loop body of `reconcile`: `if (!this.has(key)) this.store[key] = template[key]`,
reading `this.has` on the evolving store. -/
def reconcileStep (acc : Store V) (kv : String × V) : Store V :=
  if truthy (acc.has kv.1) then acc
  else { acc with store := Mirror.insert acc.store kv.1 kv.2 }

/-- `reconcile(template)`: copy every template entry whose key is not yet in
the mirror, then one `update(before, "reconcile")` for the whole batch. -/
def reconcile (s : Store V) (template : Mirror V) (fails : Bool) :
    Option Bool × Store V :=
  if !s.connected then (none, s)
  else
    let before := s.store
    update (template.foldl reconcileStep s) (some before) fails

/-- `clear()`: snapshot, reset the mirror to `{}`, one `update(before, "clear")`. -/
def clear (s : Store V) (fails : Bool) : Option Bool × Store V :=
  if !s.connected then (none, s)
  else
    let before := s.store
    update { s with store := [] } (some before) fails

/-- `addListener(event, listener)`: passthrough registration on the Keyv
handle (whose listener list is not modelled); `undefined` when disconnected,
`true` otherwise.  The store fields are untouched. -/
def addListener (s : Store V) : Option Bool :=
  if !s.connected then none
  else some true

/-- `copyKey(store, key, fallback?)`: refuse unless both stores are
connected; read through the other store's `get` (which may mutate it via the
fallback), return `null` when that read is `null`, otherwise `set` into self.
The final branch is the unreachable case of `get` returning `undefined`
although the other store was connected. -/
def copyKey (self other : Store V) (key : String) (fallback : Option V)
    (failOther failSelf : Bool) :
    Option (Option Bool) × Store V × Store V :=
  if !self.connected || !other.connected then (none, self, other)
  else
    let r := get other key fallback failOther
    match r.1 with
    | some none => (some none, self, r.2)
    | some (some v) =>
        let r2 := set self key v failSelf
        (r2.1.map some, r2.2, r.2)
    | none => (none, self, r.2)

/-- `copyFrom(store, clean?)`: refuse unless both stores are connected;
snapshot, optionally wipe the mirror, copy every entry of the other store's
mirror in property order, then one `update(before, "copyFrom")` for the whole
batch. -/
def copyFrom (self other : Store V) (clean : Bool) (fails : Bool) :
    Option Bool × Store V :=
  if !self.connected || !other.connected then (none, self)
  else
    let before := self.store
    let base := if clean then ([] : Mirror V) else self.store
    let newStore := other.store.foldl (fun acc kv => Mirror.insert acc kv.1 kv.2) base
    update { self with store := newStore } (some before) fails

end Store

/-- The constructor run of `new Store(uri, clean?)` against a backend whose
persisted blob is `loaded`, followed by the completion of `connect`'s load:
the constructor calls `connect()`, which synchronously creates the Keyv
handle and then suspends at `await this.keyv.get("store")`; control returns
to the constructor, which runs `if (clean) this.clear()` while `connected_`
is still `false`; `connect`'s continuation then sets `connected_ = true` and
installs the loaded mirror. -/
def construct {V : Type} (loaded : Mirror V) (clean dev : Bool) : Store V :=
  let s0 : Store V :=
    { connectedFlag := false, hasKeyv := false, inDevMode := dev,
      store := [], backend := loaded, pending := [] }
  let s1 : Store V := { s0 with hasKeyv := true }
  let s2 : Store V := if clean then (Store.clear s1 false).2 else s1
  { s2 with connectedFlag := true, store := loaded }

/-- A small connected store used as a concrete probe in the final checks. -/
def sampleConnected : Store Nat :=
  { connectedFlag := true, hasKeyv := true, inDevMode := false,
    store := [("a", 1)], backend := [("a", 1)], pending := [] }

/-- A second connected store, the source of cross-store copies in the
concrete probes. -/
def sampleOther : Store Nat :=
  { connectedFlag := true, hasKeyv := true, inDevMode := false,
    store := [("b", 2)], backend := [("b", 2)], pending := [] }

/-- A disconnected store used as a concrete probe. -/
def sampleDisconnected : Store Nat :=
  { connectedFlag := false, hasKeyv := false, inDevMode := false,
    store := [], backend := [], pending := [] }

/-- A connected development-mode store used as a concrete probe. -/
def sampleDev : Store Nat :=
  { connectedFlag := true, hasKeyv := true, inDevMode := true,
    store := [("a", 1)], backend := [("a", 1)], pending := [] }

/-! Address normalization of the constructor, over strings modelled as
character lists. -/

/-- A JS string, as its list of characters. -/
abbrev JStr := List Char

/-- The fixed file extension `".sqlite"`. -/
def dotSqlite : JStr := ".sqlite".toList

/-- The fixed scheme prefix `"sqlite://"`. -/
def sqliteScheme : JStr := "sqlite://".toList

/-- `s.endsWith(suffix)`. -/
def endsWith (s suffix : JStr) : Bool :=
  decide (suffix <:+ s)

/-- `s.startsWith(p)`. -/
def startsWith (s p : JStr) : Bool :=
  decide (p <+: s)

/-- The constructor's normalization of the supplied uri:
`if (!uri.endsWith(".sqlite")) uri += ".sqlite"` then
`if (!uri.startsWith("sqlite://")) uri = "sqlite://" + uri`. -/
def normalizeUri (uri : JStr) : JStr :=
  let u1 := if endsWith uri dotSqlite then uri else uri ++ dotSqlite
  if startsWith u1 sqliteScheme then u1 else sqliteScheme ++ u1

/-- `this.cleanUri = uri.slice(9, -7)` computed from the normalized uri:
characters from index 9 up to seven before the end. -/
def cleanUri (uri : JStr) : JStr :=
  let n := normalizeUri uri
  (n.take (n.length - 7)).drop 9

theorem normalizeUri_shape (uri : JStr) :
    ∃ mid, normalizeUri uri = sqliteScheme ++ (mid ++ dotSqlite) := by
  unfold normalizeUri
  set u1 := if endsWith uri dotSqlite then uri else uri ++ dotSqlite with hu1
  have hsuf : ∃ core, u1 = core ++ dotSqlite := by
    rw [hu1]
    by_cases he : endsWith uri dotSqlite
    · rw [if_pos he]
      obtain ⟨core, hcore⟩ := of_decide_eq_true he
      exact ⟨core, hcore.symm⟩
    · rw [if_neg he]
      exact ⟨uri, rfl⟩
  obtain ⟨core, hcore⟩ := hsuf
  by_cases hp : startsWith u1 sqliteScheme
  · rw [if_pos hp]
    have hpre : sqliteScheme <+: u1 := of_decide_eq_true hp
    have hcorepre : core <+: u1 := hcore ▸ List.prefix_append core dotSqlite
    rcases List.prefix_or_prefix_of_prefix hpre hcorepre with hsc | hcs
    · obtain ⟨d, hd⟩ := hsc
      exact ⟨d, by rw [hcore, ← hd, List.append_assoc]⟩
    · obtain ⟨e, he⟩ := hcs
      match e, he with
      | [], he =>
          refine ⟨[], ?_⟩
          rw [hcore, List.nil_append, ← he, List.append_nil]
      | c :: e', he =>
          exfalso
          obtain ⟨t, ht⟩ := hpre
          rw [hcore, ← he, List.append_assoc] at ht
          have hext : (c :: e') ++ t = dotSqlite := List.append_cancel_left ht
          have hc : c = '.' := by
            have : c :: (e' ++ t) = dotSqlite := by simpa using hext
            simpa [dotSqlite] using congrArg (fun l => l.headD ' ') this
          have hmem : c ∈ sqliteScheme := by
            rw [← he]
            exact List.mem_append_right core (List.mem_cons_self c e')
          rw [hc] at hmem
          exact absurd hmem (by decide)
  · rw [if_neg hp]
    exact ⟨core, by rw [hcore]⟩


namespace Mirror

variable {V : Type}

theorem lookup_insert_self (m : Mirror V) (key : String) (v : V) :
    lookup (insert m key v) key = some v := by
  induction m with
  | nil => simp [insert, lookup]
  | cons hd tl ih =>
      obtain ⟨k, w⟩ := hd
      by_cases h : k = key <;> simp [insert, lookup, h, ih]

theorem lookup_insert_ne (m : Mirror V) {key key' : String} (v : V)
    (h : key ≠ key') : lookup (insert m key v) key' = lookup m key' := by
  induction m with
  | nil => simp [insert, lookup, h]
  | cons hd tl ih =>
      obtain ⟨k, w⟩ := hd
      by_cases hk : k = key
      · subst hk; simp [insert, lookup, h, Ne.symm h]
      · by_cases hk' : k = key' <;>
          simp [insert, lookup, hk, hk', h, Ne.symm h, ih]

theorem hasKey_insert_self (m : Mirror V) (key : String) (v : V) :
    hasKey (insert m key v) key = true := by
  simp [hasKey, lookup_insert_self]

theorem hasKey_insert_ne (m : Mirror V) {key key' : String} (v : V)
    (h : key ≠ key') : hasKey (insert m key v) key' = hasKey m key' := by
  simp [hasKey, lookup_insert_ne m v h]

theorem lookup_erase_ne (m : Mirror V) {key key' : String}
    (h : key ≠ key') : lookup (erase m key) key' = lookup m key' := by
  induction m with
  | nil => simp [erase]
  | cons hd tl ih =>
      obtain ⟨k, w⟩ := hd
      by_cases hk : k = key
      · subst hk; simp [erase, lookup, h, Ne.symm h]
      · by_cases hk' : k = key' <;>
          simp [erase, lookup, hk, hk', h, Ne.symm h, ih]

theorem lookup_eq_none_of_not_mem_keys (m : Mirror V) (key : String)
    (h : key ∉ m.map Prod.fst) : lookup m key = none := by
  induction m with
  | nil => simp [lookup]
  | cons hd tl ih =>
      obtain ⟨k, w⟩ := hd
      simp only [List.map_cons, List.mem_cons] at h
      push_neg at h
      simp [lookup, Ne.symm h.1, ih h.2]

theorem lookup_erase_self (m : Mirror V) (key : String)
    (hnd : NodupKeys m) : lookup (erase m key) key = none := by
  induction m with
  | nil => simp [erase, lookup]
  | cons hd tl ih =>
      obtain ⟨k, w⟩ := hd
      have h1 : k ∉ tl.map Prod.fst := (List.nodup_cons.mp hnd).1
      have hnd' : NodupKeys tl := (List.nodup_cons.mp hnd).2
      by_cases hk : k = key
      · subst hk
        simp only [erase, if_pos rfl]
        exact lookup_eq_none_of_not_mem_keys tl k h1
      · simp [erase, lookup, hk, ih hnd']

theorem hasKey_erase_self (m : Mirror V) (key : String)
    (hnd : NodupKeys m) : hasKey (erase m key) key = false := by
  simp [hasKey, lookup_erase_self m key hnd]

theorem insert_of_not_hasKey (m : Mirror V) (key : String) (v : V)
    (h : hasKey m key = false) : insert m key v = m ++ [(key, v)] := by
  induction m with
  | nil => simp [insert]
  | cons hd tl ih =>
      obtain ⟨k, w⟩ := hd
      by_cases hk : k = key
      · simp [hasKey, lookup, hk] at h
      · simp only [insert, if_neg hk, List.cons_append, List.cons.injEq,
          true_and]
        exact ih (by simpa [hasKey, lookup, hk] using h)

theorem mem_keys_insert (m : Mirror V) (key k : String) (v : V)
    (h : k ∈ (insert m key v).map Prod.fst) :
    k ∈ m.map Prod.fst ∨ k = key := by
  induction m with
  | nil =>
      simp only [insert, List.map_cons, List.map_nil,
        List.mem_singleton] at h
      exact Or.inr h
  | cons hd tl ih =>
      obtain ⟨k', w'⟩ := hd
      by_cases hk' : k' = key
      · simp only [insert, if_pos hk', List.map_cons, List.mem_cons] at h
        simp only [List.map_cons, List.mem_cons]
        tauto
      · simp only [insert, if_neg hk', List.map_cons, List.mem_cons] at h
        simp only [List.map_cons, List.mem_cons]
        rcases h with h | h
        · tauto
        · rcases ih h with h' | h' <;> tauto

theorem mem_keys_erase (m : Mirror V) (key k : String)
    (h : k ∈ (erase m key).map Prod.fst) : k ∈ m.map Prod.fst := by
  induction m with
  | nil => simp [erase] at h
  | cons hd tl ih =>
      obtain ⟨k', w'⟩ := hd
      by_cases hk' : k' = key
      · simp only [erase, if_pos hk'] at h
        simp only [List.map_cons, List.mem_cons]
        tauto
      · simp only [erase, if_neg hk', List.map_cons, List.mem_cons] at h
        simp only [List.map_cons, List.mem_cons]
        rcases h with h | h
        · tauto
        · have := ih h
          tauto

theorem nodupKeys_insert (m : Mirror V) (key : String) (v : V)
    (hnd : NodupKeys m) : NodupKeys (insert m key v) := by
  induction m with
  | nil => simp [insert, NodupKeys]
  | cons hd tl ih =>
      obtain ⟨k, w⟩ := hd
      have h1 : k ∉ tl.map Prod.fst := (List.nodup_cons.mp hnd).1
      have h2 : NodupKeys tl := (List.nodup_cons.mp hnd).2
      by_cases hk : k = key
      · subst hk
        simpa [insert, NodupKeys] using hnd
      · simp only [insert, if_neg hk, NodupKeys, List.map_cons,
          List.nodup_cons]
        refine ⟨?_, ih h2⟩
        intro hmem
        rcases mem_keys_insert tl key k v hmem with h | h
        · exact h1 h
        · exact hk h

theorem nodupKeys_erase (m : Mirror V) (key : String)
    (hnd : NodupKeys m) : NodupKeys (erase m key) := by
  induction m with
  | nil => simp [erase, NodupKeys]
  | cons hd tl ih =>
      obtain ⟨k, w⟩ := hd
      have h1 : k ∉ tl.map Prod.fst := (List.nodup_cons.mp hnd).1
      have h2 : NodupKeys tl := (List.nodup_cons.mp hnd).2
      by_cases hk : k = key
      · simpa [erase, hk] using h2
      · simp only [erase, if_neg hk, NodupKeys, List.map_cons,
          List.nodup_cons]
        exact ⟨fun hmem => h1 (mem_keys_erase tl key k hmem), ih h2⟩

theorem lookup_eq_none_of_hasKey_false (m : Mirror V) (key : String)
    (h : hasKey m key = false) : lookup m key = none := by
  cases hl : lookup m key with
  | none => rfl
  | some v => rw [hasKey, hl] at h; simp at h

theorem lookup_append (a b : Mirror V) (key : String) :
    lookup (a ++ b) key
      = match lookup a key with
        | some v => some v
        | none => lookup b key := by
  induction a with
  | nil => simp [lookup]
  | cons hd tl ih =>
      obtain ⟨k, w⟩ := hd
      by_cases hk : k = key <;> simp [lookup, hk, ih]

theorem hasKey_append (a b : Mirror V) (key : String) :
    hasKey (a ++ b) key = (hasKey a key || hasKey b key) := by
  cases h : lookup a key <;> simp [hasKey, lookup_append, h]

theorem foldl_insert_eq_append (l : Mirror V) :
    ∀ acc : Mirror V, NodupKeys l → (∀ kv ∈ l, hasKey acc kv.1 = false) →
      l.foldl (fun acc kv => insert acc kv.1 kv.2) acc = acc ++ l := by
  induction l with
  | nil => intro acc _ _; simp
  | cons hd tl ih =>
      intro acc hnd hdisj
      obtain ⟨k, v⟩ := hd
      have hk : k ∉ tl.map Prod.fst := (List.nodup_cons.mp hnd).1
      have hnd' : NodupKeys tl := (List.nodup_cons.mp hnd).2
      have h0 : hasKey acc k = false := hdisj (k, v) (List.mem_cons_self _ _)
      simp only [List.foldl_cons]
      rw [insert_of_not_hasKey acc k v h0]
      rw [ih (acc ++ [(k, v)]) hnd' ?_]
      · rw [List.append_assoc]; rfl
      · intro kv hkv
        have hne : kv.1 ≠ k := by
          intro h
          exact hk (h ▸ List.mem_map_of_mem Prod.fst hkv)
        have h1 : hasKey acc kv.1 = false :=
          hdisj kv (List.mem_cons_of_mem _ hkv)
        simp [hasKey, lookup_append,
          lookup_eq_none_of_hasKey_false acc kv.1 h1, lookup, Ne.symm hne]

theorem lookup_foldl_reconcile (T : Mirror V) :
    ∀ (m : Mirror V) (key : String),
      lookup (T.foldl
          (fun acc kv => if hasKey acc kv.1 then acc else insert acc kv.1 kv.2) m) key
        = if hasKey m key then lookup m key else lookup T key := by
  induction T with
  | nil =>
      intro m key
      by_cases h : hasKey m key
      · simp [h]
      · have h' : hasKey m key = false := by simpa using h
        simp [h', lookup, lookup_eq_none_of_hasKey_false m key h']
  | cons hd tl ih =>
      intro m key
      obtain ⟨k0, v0⟩ := hd
      simp only [List.foldl_cons]
      by_cases h0 : hasKey m k0
      · rw [if_pos h0, ih m key]
        by_cases hk : hasKey m key
        · simp [hk]
        · have hne : k0 ≠ key := by
            intro h; rw [h] at h0; exact absurd h0 (by simp [hk])
          simp [hk, lookup, Ne.symm hne, hne]
      · rw [if_neg h0, ih (insert m k0 v0) key]
        by_cases hkk : k0 = key
        · subst hkk
          simp [hasKey_insert_self, lookup_insert_self, h0, lookup]
        · rw [hasKey_insert_ne m v0 hkk, lookup_insert_ne m v0 hkk]
          by_cases hk : hasKey m key <;> simp [hk, lookup, Ne.symm hkk, hkk]

end Mirror

namespace Store

variable {V : Type}

theorem update_disconnected (s : Store V) (b : Option (Mirror V)) (fl : Bool)
    (hc : s.connected = false) : update s b fl = (none, s) := by
  simp [update, hc]

theorem update_dev (s : Store V) (b : Option (Mirror V)) (fl : Bool)
    (hc : s.connected = true) (hdev : s.inDevMode = true) :
    update s b fl = (some true, s) := by
  simp [update, hc, hdev]

theorem update_not_dev (s : Store V) (b : Option (Mirror V)) (fl : Bool)
    (hc : s.connected = true) (hdev : s.inDevMode = false) :
    update s b fl
      = (some true, { s with pending := s.pending ++ [⟨s.store, b, fl⟩] }) := by
  simp [update, hc, hdev]

theorem update_fst (s : Store V) (b : Option (Mirror V)) (fl : Bool)
    (hc : s.connected = true) : (update s b fl).1 = some true := by
  cases hdev : s.inDevMode
  · rw [update_not_dev s b fl hc hdev]
  · rw [update_dev s b fl hc hdev]

theorem update_store (s : Store V) (b : Option (Mirror V)) (fl : Bool) :
    (update s b fl).2.store = s.store := by
  cases hc : s.connected <;> cases hdev : s.inDevMode <;>
    simp [update, hc, hdev]

theorem update_backend (s : Store V) (b : Option (Mirror V)) (fl : Bool) :
    (update s b fl).2.backend = s.backend := by
  cases hc : s.connected <;> cases hdev : s.inDevMode <;>
    simp [update, hc, hdev]

theorem update_connectedFlag (s : Store V) (b : Option (Mirror V)) (fl : Bool) :
    (update s b fl).2.connectedFlag = s.connectedFlag := by
  cases hc : s.connected <;> cases hdev : s.inDevMode <;>
    simp [update, hc, hdev]

theorem update_hasKeyv (s : Store V) (b : Option (Mirror V)) (fl : Bool) :
    (update s b fl).2.hasKeyv = s.hasKeyv := by
  cases hc : s.connected <;> cases hdev : s.inDevMode <;>
    simp [update, hc, hdev]

theorem update_connected (s : Store V) (b : Option (Mirror V)) (fl : Bool) :
    (update s b fl).2.connected = s.connected := by
  simp only [connected, update_connectedFlag, update_hasKeyv]

theorem update_inDevMode (s : Store V) (b : Option (Mirror V)) (fl : Bool) :
    (update s b fl).2.inDevMode = s.inDevMode := by
  cases hc : s.connected <;> cases hdev : s.inDevMode <;>
    simp [update, hc, hdev]

theorem settle_of_pending_nil (s : Store V) (h : s.pending = []) :
    settle s = s := by
  have h1 : settle s = { s with pending := [] } := by simp [settle, h]
  rw [h1, ← h]

theorem settle_store_of_concat_fail (s : Store V) (l : List (Pending V))
    (w b : Mirror V) (h : s.pending = l ++ [⟨w, some b, true⟩]) :
    (settle s).store = b := by
  simp [settle, h, List.foldl_append, settleOne]

theorem settle_store_single_ok (s : Store V) (w : Mirror V)
    (b : Option (Mirror V)) (h : s.pending = [⟨w, b, false⟩]) :
    (settle s).store = s.store := by
  simp [settle, h, settleOne]

theorem has_eq (s : Store V) (key : String) (hc : s.connected = true) :
    has s key = some (Mirror.hasKey s.store key) := by
  simp [has, hc]

theorem set_fst (s : Store V) (key : String) (v : V) (fl : Bool)
    (hc : s.connected = true) : (set s key v fl).1 = some true := by
  simp only [set, hc, Bool.not_true, Bool.false_eq_true, if_false]
  exact update_fst _ _ _ hc

theorem set_store (s : Store V) (key : String) (v : V) (fl : Bool)
    (hc : s.connected = true) :
    (set s key v fl).2.store = Mirror.insert s.store key v := by
  simp only [set, hc, Bool.not_true, Bool.false_eq_true, if_false]
  exact update_store _ _ _

theorem set_backend (s : Store V) (key : String) (v : V) (fl : Bool)
    (hc : s.connected = true) : (set s key v fl).2.backend = s.backend := by
  simp only [set, hc, Bool.not_true, Bool.false_eq_true, if_false]
  exact update_backend _ _ _

theorem set_connected (s : Store V) (key : String) (v : V) (fl : Bool)
    (hc : s.connected = true) : (set s key v fl).2.connected = true := by
  simp only [set, hc, Bool.not_true, Bool.false_eq_true, if_false]
  rw [update_connected]
  exact hc

theorem set_inDevMode (s : Store V) (key : String) (v : V) (fl : Bool)
    (hc : s.connected = true) : (set s key v fl).2.inDevMode = s.inDevMode := by
  simp only [set, hc, Bool.not_true, Bool.false_eq_true, if_false]
  exact update_inDevMode _ _ _

theorem set_pending_not_dev (s : Store V) (key : String) (v : V) (fl : Bool)
    (hc : s.connected = true) (hdev : s.inDevMode = false) :
    (set s key v fl).2.pending
      = s.pending ++ [⟨Mirror.insert s.store key v, some s.store, fl⟩] := by
  have hc' : s.connectedFlag = true ∧ s.hasKeyv = true := by
    simpa [connected] using hc
  simp [set, update, connected, hc'.1, hc'.2, hdev]

theorem set_dev (s : Store V) (key : String) (v : V) (fl : Bool)
    (hc : s.connected = true) (hdev : s.inDevMode = true) :
    set s key v fl = (some true, { s with store := Mirror.insert s.store key v }) := by
  have hc' : s.connectedFlag = true ∧ s.hasKeyv = true := by
    simpa [connected] using hc
  simp [set, update, connected, hc'.1, hc'.2, hdev]

theorem delete_absent (s : Store V) (key : String) (fl : Bool)
    (hc : s.connected = true) (h : Mirror.hasKey s.store key = false) :
    delete s key fl = (some none, s) := by
  simp [delete, hc, has_eq s key hc, truthy, h]

theorem delete_fst (s : Store V) (key : String) (fl : Bool)
    (hc : s.connected = true) (h : Mirror.hasKey s.store key = true) :
    (delete s key fl).1 = some (some true) := by
  simp only [delete, hc, Bool.not_true, Bool.false_eq_true, if_false,
    has_eq s key hc, truthy, Option.getD_some, h, Bool.not_true]
  rw [update_fst { s with store := Mirror.erase s.store key }
    (some s.store) fl hc]
  rfl

theorem delete_store (s : Store V) (key : String) (fl : Bool)
    (hc : s.connected = true) (h : Mirror.hasKey s.store key = true) :
    (delete s key fl).2.store = Mirror.erase s.store key := by
  simp only [delete, hc, Bool.not_true, Bool.false_eq_true, if_false,
    has_eq s key hc, truthy, Option.getD_some, h]
  exact update_store _ _ _

theorem delete_connected (s : Store V) (key : String) (fl : Bool)
    (hc : s.connected = true) :
    (delete s key fl).2.connected = true := by
  cases h : Mirror.hasKey s.store key
  · rw [delete_absent s key fl hc h]; exact hc
  · simp only [delete, hc, Bool.not_true, Bool.false_eq_true, if_false,
      has_eq s key hc, truthy, Option.getD_some, h]
    rw [update_connected]
    exact hc

theorem delete_backend (s : Store V) (key : String) (fl : Bool)
    (hc : s.connected = true) :
    (delete s key fl).2.backend = s.backend := by
  cases h : Mirror.hasKey s.store key
  · rw [delete_absent s key fl hc h]
  · simp only [delete, hc, Bool.not_true, Bool.false_eq_true, if_false,
      has_eq s key hc, truthy, Option.getD_some, h]
    exact update_backend _ _ _

theorem delete_pending_not_dev (s : Store V) (key : String) (fl : Bool)
    (hc : s.connected = true) (hdev : s.inDevMode = false)
    (h : Mirror.hasKey s.store key = true) :
    (delete s key fl).2.pending
      = s.pending ++ [⟨Mirror.erase s.store key, some s.store, fl⟩] := by
  have hc' : s.connectedFlag = true ∧ s.hasKeyv = true := by
    simpa [connected] using hc
  simp [delete, has_eq s key hc, truthy, h, update, connected,
    hc'.1, hc'.2, hdev]

theorem delete_dev (s : Store V) (key : String) (fl : Bool)
    (hc : s.connected = true) (hdev : s.inDevMode = true)
    (h : Mirror.hasKey s.store key = true) :
    delete s key fl
      = (some (some true), { s with store := Mirror.erase s.store key }) := by
  have hc' : s.connectedFlag = true ∧ s.hasKeyv = true := by
    simpa [connected] using hc
  simp [delete, has_eq s key hc, truthy, h, update, connected,
    hc'.1, hc'.2, hdev]

theorem get_present (s : Store V) (key : String) (fb : Option V) (fl : Bool)
    (hc : s.connected = true) (h : Mirror.hasKey s.store key = true) :
    get s key fb fl = (jsRead (Mirror.lookup s.store key), s) := by
  simp [get, hc, has_eq s key hc, truthy, h]

theorem get_absent_no_fallback (s : Store V) (key : String) (fl : Bool)
    (hc : s.connected = true) (h : Mirror.hasKey s.store key = false) :
    get s key none fl = (some none, s) := by
  simp [get, hc, has_eq s key hc, truthy, h]

theorem get_absent_fallback (s : Store V) (key : String) (f : V) (fl : Bool)
    (hc : s.connected = true) (h : Mirror.hasKey s.store key = false) :
    get s key (some f) fl = (some (some f), (set s key f fl).2) := by
  have hfst : (set s key f fl).1 = some true := set_fst s key f fl hc
  have hst : (set s key f fl).2.store = Mirror.insert s.store key f :=
    set_store s key f fl hc
  simp [get, hc, has_eq s key hc, truthy, h, hfst, hst, jsRead,
    Mirror.lookup_insert_self]

theorem clear_fst (s : Store V) (fl : Bool) (hc : s.connected = true) :
    (clear s fl).1 = some true := by
  simp only [clear, hc, Bool.not_true, Bool.false_eq_true, if_false]
  exact update_fst _ _ _ hc

theorem clear_store (s : Store V) (fl : Bool) (hc : s.connected = true) :
    (clear s fl).2.store = [] := by
  simp only [clear, hc, Bool.not_true, Bool.false_eq_true, if_false]
  exact update_store _ _ _

theorem clear_backend (s : Store V) (fl : Bool) (hc : s.connected = true) :
    (clear s fl).2.backend = s.backend := by
  simp only [clear, hc, Bool.not_true, Bool.false_eq_true, if_false]
  exact update_backend _ _ _

theorem clear_pending_not_dev (s : Store V) (fl : Bool)
    (hc : s.connected = true) (hdev : s.inDevMode = false) :
    (clear s fl).2.pending = s.pending ++ [⟨[], some s.store, fl⟩] := by
  have hc' : s.connectedFlag = true ∧ s.hasKeyv = true := by
    simpa [connected] using hc
  simp [clear, update, connected, hc'.1, hc'.2, hdev]

theorem clear_dev (s : Store V) (fl : Bool)
    (hc : s.connected = true) (hdev : s.inDevMode = true) :
    clear s fl = (some true, { s with store := [] }) := by
  have hc' : s.connectedFlag = true ∧ s.hasKeyv = true := by
    simpa [connected] using hc
  simp [clear, update, connected, hc'.1, hc'.2, hdev]

theorem reconcileStep_fields (acc : Store V) (kv : String × V) :
    (reconcileStep acc kv).connectedFlag = acc.connectedFlag
  ∧ (reconcileStep acc kv).hasKeyv = acc.hasKeyv
  ∧ (reconcileStep acc kv).inDevMode = acc.inDevMode
  ∧ (reconcileStep acc kv).backend = acc.backend
  ∧ (reconcileStep acc kv).pending = acc.pending := by
  unfold reconcileStep
  split <;> simp

theorem foldl_reconcileStep_fields (T : Mirror V) (s : Store V) :
    (T.foldl reconcileStep s).connectedFlag = s.connectedFlag
  ∧ (T.foldl reconcileStep s).hasKeyv = s.hasKeyv
  ∧ (T.foldl reconcileStep s).inDevMode = s.inDevMode
  ∧ (T.foldl reconcileStep s).backend = s.backend
  ∧ (T.foldl reconcileStep s).pending = s.pending := by
  induction T generalizing s with
  | nil => simp
  | cons hd tl ih =>
      simp only [List.foldl_cons]
      obtain ⟨h1, h2, h3, h4, h5⟩ := ih (reconcileStep s hd)
      obtain ⟨g1, g2, g3, g4, g5⟩ := reconcileStep_fields s hd
      exact ⟨h1.trans g1, h2.trans g2, h3.trans g3, h4.trans g4, h5.trans g5⟩

theorem foldl_reconcileStep_connected (T : Mirror V) (s : Store V) :
    (T.foldl reconcileStep s).connected = s.connected := by
  obtain ⟨h1, h2, _, _, _⟩ := foldl_reconcileStep_fields T s
  simp only [connected, h1, h2]

theorem foldl_reconcileStep_store (T : Mirror V) (s : Store V)
    (hc : s.connected = true) :
    (T.foldl reconcileStep s).store
      = T.foldl
          (fun acc kv =>
            if Mirror.hasKey acc kv.1 then acc else Mirror.insert acc kv.1 kv.2)
          s.store := by
  induction T generalizing s with
  | nil => simp
  | cons hd tl ih =>
      simp only [List.foldl_cons]
      have hstep : (reconcileStep s hd).connected = s.connected := by
        unfold reconcileStep; split <;> rfl
      rw [ih (reconcileStep s hd) (hstep.trans hc)]
      congr 1
      unfold reconcileStep
      rw [has_eq s hd.1 hc]
      simp only [truthy, Option.getD_some]
      split <;> rfl

theorem reconcile_eq (s : Store V) (template : Mirror V) (fl : Bool)
    (hc : s.connected = true) :
    reconcile s template fl
      = update (template.foldl reconcileStep s) (some s.store) fl := by
  simp [reconcile, hc]

theorem reconcile_fst (s : Store V) (template : Mirror V) (fl : Bool)
    (hc : s.connected = true) : (reconcile s template fl).1 = some true := by
  rw [reconcile_eq s template fl hc]
  exact update_fst _ _ _ ((foldl_reconcileStep_connected template s).trans hc)

theorem reconcile_store (s : Store V) (template : Mirror V) (fl : Bool)
    (hc : s.connected = true) :
    (reconcile s template fl).2.store
      = template.foldl
          (fun acc kv =>
            if Mirror.hasKey acc kv.1 then acc else Mirror.insert acc kv.1 kv.2)
          s.store := by
  rw [reconcile_eq s template fl hc, update_store]
  exact foldl_reconcileStep_store template s hc

theorem copyFrom_eq (self other : Store V) (clean fl : Bool)
    (hcs : self.connected = true) (hco : other.connected = true) :
    copyFrom self other clean fl
      = update
          { self with
            store :=
              other.store.foldl (fun acc kv => Mirror.insert acc kv.1 kv.2)
                (if clean then [] else self.store) }
          (some self.store) fl := by
  simp [copyFrom, hcs, hco]

theorem copyFrom_fst (self other : Store V) (clean fl : Bool)
    (hcs : self.connected = true) (hco : other.connected = true) :
    (copyFrom self other clean fl).1 = some true := by
  rw [copyFrom_eq self other clean fl hcs hco]
  apply update_fst
  simpa [connected] using hcs

theorem copyFrom_store (self other : Store V) (clean fl : Bool)
    (hcs : self.connected = true) (hco : other.connected = true) :
    (copyFrom self other clean fl).2.store
      = other.store.foldl (fun acc kv => Mirror.insert acc kv.1 kv.2)
          (if clean then [] else self.store) := by
  rw [copyFrom_eq self other clean fl hcs hco, update_store]

theorem reconcile_pending_not_dev (s : Store V) (template : Mirror V)
    (fl : Bool) (hc : s.connected = true) (hdev : s.inDevMode = false) :
    (reconcile s template fl).2.pending
      = s.pending
          ++ [⟨(template.foldl reconcileStep s).store, some s.store, fl⟩] := by
  rw [reconcile_eq s template fl hc,
    update_not_dev _ _ _ ((foldl_reconcileStep_connected template s).trans hc)
      ((foldl_reconcileStep_fields template s).2.2.1.trans hdev)]
  simp [(foldl_reconcileStep_fields template s).2.2.2.2]

theorem reconcile_dev (s : Store V) (template : Mirror V) (fl : Bool)
    (hc : s.connected = true) (hdev : s.inDevMode = true) :
    reconcile s template fl = (some true, template.foldl reconcileStep s) := by
  rw [reconcile_eq s template fl hc,
    update_dev _ _ _ ((foldl_reconcileStep_connected template s).trans hc)
      ((foldl_reconcileStep_fields template s).2.2.1.trans hdev)]

theorem copyFrom_pending_not_dev (self other : Store V) (clean fl : Bool)
    (hcs : self.connected = true) (hco : other.connected = true)
    (hdev : self.inDevMode = false) :
    (copyFrom self other clean fl).2.pending
      = self.pending
          ++ [⟨other.store.foldl (fun acc kv => Mirror.insert acc kv.1 kv.2)
                 (if clean then [] else self.store),
               some self.store, fl⟩] := by
  rw [copyFrom_eq self other clean fl hcs hco,
    update_not_dev _ _ _ (by exact hcs) (by exact hdev)]

theorem copyFrom_dev (self other : Store V) (clean fl : Bool)
    (hcs : self.connected = true) (hco : other.connected = true)
    (hdev : self.inDevMode = true) :
    copyFrom self other clean fl
      = (some true,
         { self with
           store :=
             other.store.foldl (fun acc kv => Mirror.insert acc kv.1 kv.2)
               (if clean then [] else self.store) }) := by
  rw [copyFrom_eq self other clean fl hcs hco,
    update_dev _ _ _ (by exact hcs) (by exact hdev)]

theorem copyFrom_other_disconnected (self other : Store V) (clean fl : Bool)
    (hco : other.connected = false) :
    copyFrom self other clean fl = (none, self) := by
  simp [copyFrom, hco]

theorem settleOne_fields (s : Store V) (p : Pending V) :
    (settleOne s p).connectedFlag = s.connectedFlag
  ∧ (settleOne s p).hasKeyv = s.hasKeyv := by
  cases hf : p.fails <;> cases hb : p.before <;> simp [settleOne, hf, hb]

theorem foldl_settleOne_fields (l : List (Pending V)) :
    ∀ s : Store V,
      (l.foldl settleOne s).connectedFlag = s.connectedFlag
    ∧ (l.foldl settleOne s).hasKeyv = s.hasKeyv := by
  induction l with
  | nil => intro s; exact ⟨rfl, rfl⟩
  | cons hd tl ih =>
      intro s
      simp only [List.foldl_cons]
      obtain ⟨h1, h2⟩ := ih (settleOne s hd)
      obtain ⟨g1, g2⟩ := settleOne_fields s hd
      exact ⟨h1.trans g1, h2.trans g2⟩

theorem settle_connected (s : Store V) :
    (settle s).connected = s.connected := by
  obtain ⟨h1, h2⟩ := foldl_settleOne_fields s.pending s
  simp only [settle, connected]
  rw [h1, h2]

end Store

theorem normalizeUri_fixed (u : JStr) (he : endsWith u dotSqlite = true)
    (hs : startsWith u sqliteScheme = true) : normalizeUri u = u := by
  simp [normalizeUri, he, hs]

/-- Claim C2: every public operation (`has`, `get`, `set`, `delete`,
`reconcile`, `clear`, `copyKey`, `copyFrom`, `addListener`, `update`) invoked
on a disconnected store returns the NotConnected signal `undefined` (`none`),
does not mutate the store, and that result is distinct from the valid
empty/false results (`null` alias `some none`, and `false` alias
`some false`). -/
theorem disconnected_ops_refuse {V : Type}
    (s other : Store V) (key : String) (v : V) (f fb : Option V)
    (template : Mirror V) (b : Option (Mirror V)) (clean fl fl2 : Bool)
    (hc : s.connected = false) :
    Store.has s key = none
  ∧ Store.get s key f fl = (none, s)
  ∧ Store.set s key v fl = (none, s)
  ∧ Store.delete s key fl = (none, s)
  ∧ Store.reconcile s template fl = (none, s)
  ∧ Store.clear s fl = (none, s)
  ∧ Store.copyKey s other key fb fl fl2 = (none, s, other)
  ∧ Store.copyFrom s other clean fl = (none, s)
  ∧ Store.addListener s = none
  ∧ Store.update s b fl = (none, s)
  ∧ Store.has s key ≠ some false
  ∧ (Store.get s key f fl).1 ≠ some none
  ∧ (Store.set s key v fl).1 ≠ some false
  ∧ (Store.delete s key fl).1 ≠ some none := by
  refine ⟨?_, ?_, ?_, ?_, ?_, ?_, ?_, ?_, ?_, ?_, ?_, ?_, ?_, ?_⟩ <;>
    simp [Store.has, Store.get, Store.set, Store.delete, Store.reconcile,
      Store.clear, Store.copyKey, Store.copyFrom, Store.addListener,
      Store.update, hc]

/-- Claim C3: on a connected, non-development store, `update` always returns
`true` — the `.catch` callback of the asynchronous backend write cannot have
run by the time `update` returns, so the local `failed` flag is still
`false`.  Consequently `set`, `clear`, `reconcile`, `copyFrom` and `delete`
of a present key never report failure, and the branch of `get` that tests
`set(...) === false` is unreachable: `get` with a fallback never returns
`null`. -/
theorem connected_update_always_true {V : Type}
    (s other : Store V) (b : Option (Mirror V)) (key k2 : String) (v f : V)
    (template : Mirror V) (clean fl : Bool)
    (hc : s.connected = true) (_hdev : s.inDevMode = false)
    (hoc : other.connected = true)
    (hpresent : Mirror.hasKey s.store key = true) :
    (Store.update s b fl).1 = some true
  ∧ (Store.set s key v fl).1 = some true
  ∧ (Store.clear s fl).1 = some true
  ∧ (Store.reconcile s template fl).1 = some true
  ∧ (Store.copyFrom s other clean fl).1 = some true
  ∧ (Store.delete s key fl).1 = some (some true)
  ∧ (Store.get s k2 (some f) fl).1 ≠ some none := by
  refine ⟨Store.update_fst s b fl hc, Store.set_fst s key v fl hc,
    Store.clear_fst s fl hc, Store.reconcile_fst s template fl hc,
    Store.copyFrom_fst s other clean fl hc hoc,
    Store.delete_fst s key fl hc hpresent, ?_⟩
  cases hk : Mirror.hasKey s.store k2
  · rw [Store.get_absent_fallback s k2 f fl hc hk]
    simp
  · rw [Store.get_present s k2 (some f) fl hc hk]
    obtain ⟨w, hw⟩ :=
      Option.isSome_iff_exists.mp (by simpa [Mirror.hasKey] using hk)
    simp [Store.jsRead, hw]

/-- Claim C9: constructing a `Store` with the wipe-on-start flag `true` is
indistinguishable from constructing with it `false`: the constructor's
`this.clear()` runs before `connect`'s awaited load has set `connected_`, so
`clear` returns the NotConnected signal and changes nothing — neither the
mirror nor the persisted backend blob. -/
theorem wipe_on_start_noop {V : Type} (loaded : Mirror V) (dev fl : Bool) :
    construct loaded true dev = construct loaded false dev
  ∧ Store.clear
      ({ connectedFlag := false, hasKeyv := true, inDevMode := dev,
         store := [], backend := loaded, pending := [] } : Store V) fl
      = (none,
         { connectedFlag := false, hasKeyv := true, inDevMode := dev,
           store := [], backend := loaded, pending := [] }) := by
  exact ⟨rfl, rfl⟩

/-- Claim C10: for every input address, the normalized uri ends with the
fixed extension `".sqlite"` and starts with the fixed scheme prefix
`"sqlite://"`; the normalization is idempotent; and `cleanUri` — the
normalized uri with the 9-character prefix and the 7-character extension
stripped — reassembles with them to exactly the normalized uri. -/
theorem uri_normalization (uri : JStr) :
    endsWith (normalizeUri uri) dotSqlite = true
  ∧ startsWith (normalizeUri uri) sqliteScheme = true
  ∧ normalizeUri (normalizeUri uri) = normalizeUri uri
  ∧ sqliteScheme ++ cleanUri uri ++ dotSqlite = normalizeUri uri := by
  obtain ⟨mid, hm⟩ := normalizeUri_shape uri
  have h1 : endsWith (normalizeUri uri) dotSqlite = true := by
    rw [hm]
    apply decide_eq_true
    rw [← List.append_assoc]
    exact List.suffix_append _ _
  have h2 : startsWith (normalizeUri uri) sqliteScheme = true := by
    rw [hm]
    exact decide_eq_true (List.prefix_append _ _)
  have h4 : cleanUri uri = mid := by
    simp only [cleanUri, hm]
    rw [← List.append_assoc]
    have hlen : ((sqliteScheme ++ mid) ++ dotSqlite).length - 7
        = (sqliteScheme ++ mid).length := by
      have h7 : dotSqlite.length = 7 := by decide
      simp [List.length_append, h7]
      omega
    rw [hlen, List.take_left]
    have h9 : (9 : Nat) = sqliteScheme.length := by decide
    rw [h9, List.drop_left]
  exact ⟨h1, h2, normalizeUri_fixed _ h1 h2, by
    rw [h4, hm, List.append_assoc]⟩

/-- Claim C1: on a connected non-development store with no other write in
flight, every mutation whose backend write fails — `set`, `delete`,
`reconcile`, `clear`, `copyFrom`, all of which pass their pre-mutation
snapshot to `update` — leaves the mirror, once the failure handling has
settled, exactly equal to the mirror immediately before the mutation; in
particular a failed `reconcile` or `copyFrom` reverts all its added keys as
one unit. -/
theorem rollback_restores_premutation_mirror {V : Type}
    (s other : Store V) (key : String) (v : V) (template : Mirror V)
    (clean : Bool)
    (hc : s.connected = true) (hdev : s.inDevMode = false)
    (hp : s.pending = []) :
    (Store.settle (Store.set s key v true).2).store = s.store
  ∧ (Store.settle (Store.delete s key true).2).store = s.store
  ∧ (Store.settle (Store.reconcile s template true).2).store = s.store
  ∧ (Store.settle (Store.clear s true).2).store = s.store
  ∧ (Store.settle (Store.copyFrom s other clean true).2).store = s.store := by
  refine ⟨?_, ?_, ?_, ?_, ?_⟩
  · exact Store.settle_store_of_concat_fail _ s.pending _ s.store
      (Store.set_pending_not_dev s key v true hc hdev)
  · cases hk : Mirror.hasKey s.store key
    · rw [Store.delete_absent s key true hc hk,
        Store.settle_of_pending_nil s hp]
    · exact Store.settle_store_of_concat_fail _ s.pending _ s.store
        (Store.delete_pending_not_dev s key true hc hdev hk)
  · exact Store.settle_store_of_concat_fail _ s.pending _ s.store
      (Store.reconcile_pending_not_dev s template true hc hdev)
  · exact Store.settle_store_of_concat_fail _ s.pending _ s.store
      (Store.clear_pending_not_dev s true hc hdev)
  · cases hoc : other.connected
    · rw [Store.copyFrom_other_disconnected s other clean true hoc,
        Store.settle_of_pending_nil s hp]
    · exact Store.settle_store_of_concat_fail _ s.pending _ s.store
        (Store.copyFrom_pending_not_dev s other clean true hc hoc hdev)

/-- Claim C4: on a connected store with no other write in flight: `get` of an
absent key with no fallback returns NotFound (`null`); `get` of an absent key
with a fallback performs `set(key, fallback)` — its resulting state is
exactly the state `set` produces — and when that set reports success `get`
returns the fallback and a subsequent `has` is `true` (also after the
successful write settles); when that set reports failure (returns `false`)
`get` returns NotFound and the settled `has` is `false`; `get` of a present
key returns the stored value, whether or not a fallback is supplied. -/
theorem get_fallback_semantics {V : Type}
    (s : Store V) (key : String) (f : V) (fb : Option V) (fl : Bool)
    (hc : s.connected = true) (hp : s.pending = []) :
    (Mirror.hasKey s.store key = false →
        (Store.get s key none fl).1 = some none)
  ∧ (Mirror.hasKey s.store key = false →
        (Store.get s key (some f) fl).2 = (Store.set s key f fl).2)
  ∧ (Mirror.hasKey s.store key = false →
      (Store.set s key f fl).1 = some true →
        (Store.get s key (some f) fl).1 = some (some f)
      ∧ Store.has (Store.get s key (some f) fl).2 key = some true
      ∧ (fl = false →
          Store.has (Store.settle (Store.get s key (some f) fl).2) key
            = some true))
  ∧ (Mirror.hasKey s.store key = false →
      (Store.set s key f fl).1 = some false →
        (Store.get s key (some f) fl).1 = some none
      ∧ Store.has (Store.settle (Store.get s key (some f) fl).2) key
          = some false)
  ∧ (∀ w, Mirror.lookup s.store key = some w →
        (Store.get s key fb fl).1 = some (some w)) := by
  refine ⟨?_, ?_, ?_, ?_, ?_⟩
  · intro hk
    rw [Store.get_absent_no_fallback s key fl hc hk]
  · intro hk
    rw [Store.get_absent_fallback s key f fl hc hk]
  · intro hk _
    have hx := Store.get_absent_fallback s key f fl hc hk
    have hc1 := Store.set_connected s key f fl hc
    have hs1 := Store.set_store s key f fl hc
    refine ⟨by rw [hx], ?_, ?_⟩
    · rw [hx, Store.has_eq _ key hc1, hs1, Mirror.hasKey_insert_self]
    · intro hfl
      subst hfl
      rw [hx]
      have hcset : (Store.settle (Store.set s key f false).2).connected = true :=
        (Store.settle_connected _).trans hc1
      rw [Store.has_eq _ key hcset]
      cases hdev : s.inDevMode
      · have hpend := Store.set_pending_not_dev s key f false hc hdev
        rw [hp, List.nil_append] at hpend
        rw [Store.settle_store_single_ok _ _ _ hpend, hs1,
          Mirror.hasKey_insert_self]
      · have hsd := Store.set_dev s key f false hc hdev
        have hpend : (Store.set s key f false).2.pending = [] := by
          rw [hsd]; exact hp
        rw [Store.settle_of_pending_nil _ hpend, hs1,
          Mirror.hasKey_insert_self]
  · intro _ hfalse
    rw [Store.set_fst s key f fl hc] at hfalse
    cases hfalse
  · intro w hw
    have hk : Mirror.hasKey s.store key = true := by
      simp [Mirror.hasKey, hw]
    rw [Store.get_present s key fb fl hc hk]
    simp [Store.jsRead, hw]

/-- Claim C5: on a connected store, a non-failing `reconcile(template)`
changes no key already present in the mirror, and afterwards every key of the
template absent from the mirror is present with the template's value (the
first occurrence, matching JS object key uniqueness); if the batched write —
a single `update` call covering the whole batch — fails, the settled mirror
is exactly the pre-call mirror. -/
theorem reconcile_template_semantics {V : Type}
    (s : Store V) (template : Mirror V) (key : String)
    (hc : s.connected = true) :
    (Mirror.hasKey s.store key = true →
        Mirror.lookup (Store.reconcile s template false).2.store key
          = Mirror.lookup s.store key)
  ∧ (Mirror.hasKey s.store key = false →
        Mirror.lookup (Store.reconcile s template false).2.store key
          = Mirror.lookup template key)
  ∧ (s.inDevMode = false →
        (Store.settle (Store.reconcile s template true).2).store = s.store) := by
  have hst := Store.reconcile_store s template false hc
  have hlk := Mirror.lookup_foldl_reconcile template s.store key
  refine ⟨?_, ?_, ?_⟩
  · intro hk
    rw [hst, hlk, if_pos hk]
  · intro hk
    rw [hst, hlk, if_neg (by simp [hk])]
  · intro hdev
    exact Store.settle_store_of_concat_fail _ s.pending _ s.store
      (Store.reconcile_pending_not_dev s template true hc hdev)

/-- Claim C6: for connected stores, a successful
`copyFrom(other, wipeFirst = true)` leaves self's mirror exactly equal — same
keys, same values, same order — to other's mirror at the time of the call;
the whole copy goes through one batched `update`, so on failure the settled
mirror is exactly the pre-call mirror (all-or-nothing). -/
theorem copyFrom_wipe_copies_exactly {V : Type}
    (self other : Store V)
    (hcs : self.connected = true) (hco : other.connected = true)
    (hnd : Mirror.NodupKeys other.store) :
    (Store.copyFrom self other true false).2.store = other.store
  ∧ (self.inDevMode = false →
        (Store.settle (Store.copyFrom self other true true).2).store
          = self.store) := by
  constructor
  · rw [Store.copyFrom_store self other true false hcs hco]
    have hwipe : (if (true : Bool) = true then ([] : Mirror V) else self.store)
        = [] := if_pos rfl
    rw [hwipe, Mirror.foldl_insert_eq_append other.store [] hnd
      (fun kv _ => rfl)]
    exact List.nil_append other.store
  · intro hdev
    exact Store.settle_store_of_concat_fail _ self.pending _ self.store
      (Store.copyFrom_pending_not_dev self other true true hcs hco hdev)

/-- Claim C7: on a connected store whose writes succeed: after
`set(key, v)`, `get(key)` returns `v`; `delete(key)` of the now-present key
reports success; after that delete `get(key)` returns NotFound (`null`); and
a second `delete(key)` returns NotFound, which is distinct from the failure
result `false`. -/
theorem set_get_delete_scenario {V : Type}
    (s : Store V) (key : String) (v : V)
    (hc : s.connected = true) (hnd : Mirror.NodupKeys s.store) :
    (Store.set s key v false).1 = some true
  ∧ (Store.get (Store.set s key v false).2 key none false).1 = some (some v)
  ∧ (Store.delete (Store.set s key v false).2 key false).1 = some (some true)
  ∧ (Store.get (Store.delete (Store.set s key v false).2 key false).2
        key none false).1 = some none
  ∧ (Store.delete (Store.delete (Store.set s key v false).2 key false).2
        key false).1 = some none
  ∧ (Store.delete (Store.delete (Store.set s key v false).2 key false).2
        key false).1 ≠ some (some false) := by
  have hc1 : (Store.set s key v false).2.connected = true :=
    Store.set_connected s key v false hc
  have hs1 : (Store.set s key v false).2.store = Mirror.insert s.store key v :=
    Store.set_store s key v false hc
  have hk1 : Mirror.hasKey (Store.set s key v false).2.store key = true := by
    rw [hs1]; exact Mirror.hasKey_insert_self _ _ _
  have hnd1 : Mirror.NodupKeys (Store.set s key v false).2.store := by
    rw [hs1]; exact Mirror.nodupKeys_insert _ _ _ hnd
  have hc2 : (Store.delete (Store.set s key v false).2 key false).2.connected
      = true := Store.delete_connected _ key false hc1
  have hs2 : (Store.delete (Store.set s key v false).2 key false).2.store
      = Mirror.erase (Store.set s key v false).2.store key :=
    Store.delete_store _ key false hc1 hk1
  have hk2 : Mirror.hasKey
      (Store.delete (Store.set s key v false).2 key false).2.store key
      = false := by
    rw [hs2]; exact Mirror.hasKey_erase_self _ _ hnd1
  refine ⟨Store.set_fst s key v false hc, ?_, ?_, ?_, ?_, ?_⟩
  · rw [Store.get_present _ key none false hc1 hk1, hs1,
      Mirror.lookup_insert_self]
    rfl
  · exact Store.delete_fst _ key false hc1 hk1
  · rw [Store.get_absent_no_fallback _ key false hc2 hk2]
  · rw [Store.delete_absent _ key false hc2 hk2]
  · rw [Store.delete_absent _ key false hc2 hk2]
    simp

/-- Claim C8: on a connected store constructed in development mode, `update`
issues no backend write and reports success unconditionally: every mutation
(`set`, `delete` of a present key, `clear`, `reconcile`, `copyFrom`) is
visible in the in-memory mirror and reports success, no write is queued
(`settle` is a no-op on the result), and the persisted backend blob is
never changed after the connect-time load. -/
theorem devmode_no_persistence {V : Type}
    (s other : Store V) (b : Option (Mirror V)) (key : String) (v : V)
    (template : Mirror V) (clean fl : Bool)
    (hc : s.connected = true) (hdev : s.inDevMode = true)
    (hoc : other.connected = true)
    (hpresent : Mirror.hasKey s.store key = true)
    (hp : s.pending = []) :
    Store.update s b fl = (some true, s)
  ∧ Store.set s key v fl
      = (some true, { s with store := Mirror.insert s.store key v })
  ∧ Store.settle (Store.set s key v fl).2 = (Store.set s key v fl).2
  ∧ (Store.set s key v fl).2.backend = s.backend
  ∧ Store.clear s fl = (some true, { s with store := [] })
  ∧ Store.settle (Store.clear s fl).2 = (Store.clear s fl).2
  ∧ (Store.clear s fl).2.backend = s.backend
  ∧ (Store.reconcile s template fl).1 = some true
  ∧ Store.settle (Store.reconcile s template fl).2
      = (Store.reconcile s template fl).2
  ∧ (Store.reconcile s template fl).2.backend = s.backend
  ∧ (Store.copyFrom s other clean fl).1 = some true
  ∧ Store.settle (Store.copyFrom s other clean fl).2
      = (Store.copyFrom s other clean fl).2
  ∧ (Store.copyFrom s other clean fl).2.backend = s.backend
  ∧ Store.delete s key fl
      = (some (some true), { s with store := Mirror.erase s.store key })
  ∧ Store.settle (Store.delete s key fl).2 = (Store.delete s key fl).2
  ∧ (Store.delete s key fl).2.backend = s.backend := by
  have hset := Store.set_dev s key v fl hc hdev
  have hclear := Store.clear_dev s fl hc hdev
  have hrec := Store.reconcile_dev s template fl hc hdev
  have hcopy := Store.copyFrom_dev s other clean fl hc hoc hdev
  have hdel := Store.delete_dev s key fl hc hdev hpresent
  refine ⟨Store.update_dev s b fl hc hdev, hset, ?_, ?_, hclear, ?_, ?_,
    by rw [hrec], ?_, ?_, by rw [hcopy], ?_, ?_, hdel, ?_, ?_⟩
  · exact Store.settle_of_pending_nil _ (by rw [hset]; exact hp)
  · rw [hset]
  · exact Store.settle_of_pending_nil _ (by rw [hclear]; exact hp)
  · rw [hclear]
  · exact Store.settle_of_pending_nil _ (by
      rw [hrec]
      exact (Store.foldl_reconcileStep_fields template s).2.2.2.2.trans hp)
  · rw [hrec]
    exact (Store.foldl_reconcileStep_fields template s).2.2.2.1
  · exact Store.settle_of_pending_nil _ (by rw [hcopy]; exact hp)
  · rw [hcopy]
  · exact Store.settle_of_pending_nil _ (by rw [hdel]; exact hp)
  · rw [hdel]

/-- Concrete instantiation of claim C1's theorem: its hypotheses hold at the
sample connected store, and a failed `set` there rolls the settled mirror
back to the pre-mutation snapshot. -/
theorem rollback_restores_premutation_mirror_witness :
    (sampleConnected.connected = true ∧ sampleConnected.inDevMode = false
      ∧ sampleConnected.pending = [])
  ∧ (Store.settle (Store.set sampleConnected "a" 2 true).2).store
      = sampleConnected.store :=
  ⟨⟨rfl, rfl, rfl⟩,
    (rollback_restores_premutation_mirror sampleConnected sampleOther "a" 2
      [("c", 3)] true rfl rfl rfl).1⟩

/-- Concrete instantiation of claim C2's theorem at the sample disconnected
store. -/
theorem disconnected_ops_refuse_witness :
    sampleDisconnected.connected = false
  ∧ Store.has sampleDisconnected "k" = none :=
  ⟨rfl,
    (disconnected_ops_refuse sampleDisconnected sampleOther "k" 0 none none
      [] none false false false rfl).1⟩

/-- Concrete instantiation of claim C3's theorem at the sample connected
store. -/
theorem connected_update_always_true_witness :
    (sampleConnected.connected = true ∧ sampleConnected.inDevMode = false
      ∧ sampleOther.connected = true
      ∧ Mirror.hasKey sampleConnected.store "a" = true)
  ∧ (Store.update sampleConnected none false).1 = some true :=
  ⟨⟨rfl, rfl, rfl, by decide⟩,
    (connected_update_always_true sampleConnected sampleOther none "a" "k" 2 5
      [] false false rfl rfl rfl (by decide)).1⟩

/-- Concrete instantiation of claim C4's theorem at the sample connected
store. -/
theorem get_fallback_semantics_witness :
    (sampleConnected.connected = true ∧ sampleConnected.pending = [])
  ∧ (Mirror.hasKey sampleConnected.store "k" = false →
        (Store.get sampleConnected "k" none false).1 = some none) :=
  ⟨⟨rfl, rfl⟩,
    (get_fallback_semantics sampleConnected "k" 5 (some 9) false rfl rfl).1⟩

/-- Concrete instantiation of claim C5's theorem at the sample connected
store. -/
theorem reconcile_template_semantics_witness :
    sampleConnected.connected = true
  ∧ (Mirror.hasKey sampleConnected.store "a" = true →
        Mirror.lookup
            (Store.reconcile sampleConnected [("c", 3)] false).2.store "a"
          = Mirror.lookup sampleConnected.store "a") :=
  ⟨rfl, (reconcile_template_semantics sampleConnected [("c", 3)] "a" rfl).1⟩

/-- Concrete instantiation of claim C6's theorem at the sample stores. -/
theorem copyFrom_wipe_copies_exactly_witness :
    (sampleConnected.connected = true ∧ sampleOther.connected = true
      ∧ Mirror.NodupKeys sampleOther.store)
  ∧ (Store.copyFrom sampleConnected sampleOther true false).2.store
      = sampleOther.store :=
  ⟨⟨rfl, rfl, by decide⟩,
    (copyFrom_wipe_copies_exactly sampleConnected sampleOther rfl rfl
      (by decide)).1⟩

/-- Concrete instantiation of claim C7's theorem at the sample connected
store. -/
theorem set_get_delete_scenario_witness :
    (sampleConnected.connected = true
      ∧ Mirror.NodupKeys sampleConnected.store)
  ∧ (Store.set sampleConnected "foo" 7 false).1 = some true :=
  ⟨⟨rfl, by decide⟩,
    (set_get_delete_scenario sampleConnected "foo" 7 rfl (by decide)).1⟩

/-- Concrete instantiation of claim C8's theorem at the sample
development-mode store. -/
theorem devmode_no_persistence_witness :
    (sampleDev.connected = true ∧ sampleDev.inDevMode = true
      ∧ sampleOther.connected = true
      ∧ Mirror.hasKey sampleDev.store "a" = true ∧ sampleDev.pending = [])
  ∧ Store.update sampleDev none false = (some true, sampleDev) :=
  ⟨⟨rfl, rfl, rfl, by decide, rfl⟩,
    (devmode_no_persistence sampleDev sampleOther none "a" 2 [] false false
      rfl rfl rfl (by decide) rfl).1⟩

end SqliteStore
